import Mathlib

/-!
A verification development for a correlated-equilibrium toolkit: an `n`-player
normal-form game model (`game.py`), a swap-regret online-learning solver
(`sr.py`), and an equilibrium verifier (`tester.py`).  The definitions below
shallowly embed the Python source over `ℚ`; the theorems settle the claims of
the natural-language specification against that embedding.
-/

namespace CEVerif

/-! ## Game data model (game.py)

A numpy payoff array is embedded as a `Tensor`: its `shape` (the tuple
`num_actions`) plus a total valuation function on index tuples.  In-bounds
numpy indexing returns `val`; the only out-of-range accesses the claims need
(indexing the *list* `payoff_matrices` past its end) are modelled separately
as `IndexError`s. -/

structure Tensor where
  shape : List ℕ
  val : List ℕ → ℚ

structure Game where
  num_players : ℕ
  num_actions : List ℕ
  payoff_matrices : List Tensor

/-- `itertools.product(*[range(n) for n in num_actions])` (game.py
`get_action_profiles`): all joint action profiles, last coordinate varying
fastest. -/
def actionProfiles : List ℕ → List (List ℕ)
  | [] => [[]]
  | n :: rest => (List.range n).flatMap (fun a => (actionProfiles rest).map (fun p => a :: p))

/-- Game-type enum values from `game.py`. -/
def RANDOM : ℕ := 0

def CHICKEN : ℕ := 1

def CONGESTION : ℕ := 2

def CUSTOM : ℕ := 3

/-- `Game._generate_random_payoff_matrices`.  The draws of
`np.random.uniform(-10, 10, size=joint_action_space)` are abstracted as a
value oracle `rand : player → profile → value`; the generated arrays always
have the joint-action-space shape. -/
def generate_random_payoff_matrices (num_players : ℕ) (num_actions : List ℕ)
    (rand : ℕ → List ℕ → ℚ) : List Tensor :=
  (List.range num_players).map (fun i => ⟨num_actions, rand i⟩)

/-- Row lookup for a small hard-coded 2×2 `np.array`. -/
def mat2 (rows : List (List ℚ)) : Tensor :=
  ⟨[rows.length, (rows.headD []).length],
   fun p => (rows.getD (p.getD 0 0) []).getD (p.getD 1 0) 0⟩

/-- `np.array([[0, -1], [1, -10]])`, player 1's chicken payoffs. -/
def chicken_payoffs_p1 : Tensor := mat2 [[0, -1], [1, -10]]

/-- `np.array([[0, 1], [-1, -10]])`, player 2's chicken payoffs. -/
def chicken_payoffs_p2 : Tensor := mat2 [[0, 1], [-1, -10]]

/-- `Game._generate_chicken_payoff_matrices`: validates two players, equal
action counts, at least two actions each, then returns the fixed 2×2
matrices.  A `num_actions` list shorter than 2 would make `num_actions[0]`
or `num_actions[1]` raise, modelled as the `IndexError` branch. -/
def generate_chicken_payoff_matrices (num_players : ℕ) (num_actions : List ℕ) :
    Except String (List Tensor) :=
  if num_players ≠ 2 then .error "Chicken game can only be played by two players."
  else match num_actions with
    | a0 :: a1 :: _ =>
      if a0 ≠ a1 then .error "Both players must have the same number of actions."
      else if a0 < 2 ∨ a1 < 2 then .error "Both players must have at least two actions."
      else .ok [chicken_payoffs_p1, chicken_payoffs_p2]
    | _ => .error "IndexError"

/-- `Game._generate_congestion_payoff_matrices`: every player's payoff at a
profile is minus the sum of the chosen action indices; shape is the joint
action space. -/
def generate_congestion_payoff_matrices (num_players : ℕ) (num_actions : List ℕ) :
    List Tensor :=
  (List.range num_players).map (fun _ => ⟨num_actions, fun profile => -((profile.sum : ℕ) : ℚ)⟩)

/-- Index of the first supplied matrix whose shape differs from the joint
action space (the first `i` whose check raises in the Python loop). -/
def find_bad_shape (num_actions : List ℕ) : List Tensor → ℕ → Option ℕ
  | [], _ => none
  | m :: rest, i =>
    if m.shape ≠ num_actions then some i else find_bad_shape num_actions rest (i + 1)

/-- `Game._generate_custom_payoff_matrices`: checks each supplied matrix's
shape against `tuple(num_actions)` and raises at the first mismatch; the
number of matrices is never compared with `num_players`. -/
def generate_custom_payoff_matrices (num_actions : List ℕ) (mats : List Tensor) :
    Except String (List Tensor) :=
  match find_bad_shape num_actions mats 0 with
  | some i => .error ("Payoff matrix for player " ++ toString i ++ " has incorrect shape.")
  | none => .ok mats

/-- `Game.__init__`: dispatch on `game_type`; CUSTOM additionally requires
`payoff_matrices is not None`, otherwise the final `ValueError` branch
fires. -/
def game_init (num_players : ℕ) (num_actions : List ℕ) (game_type : ℕ)
    (payoff_matrices : Option (List Tensor)) (rand : ℕ → List ℕ → ℚ) :
    Except String Game :=
  if game_type = RANDOM then
    .ok ⟨num_players, num_actions, generate_random_payoff_matrices num_players num_actions rand⟩
  else if game_type = CHICKEN then
    (generate_chicken_payoff_matrices num_players num_actions).map
      (fun ms => ⟨num_players, num_actions, ms⟩)
  else if game_type = CONGESTION then
    .ok ⟨num_players, num_actions, generate_congestion_payoff_matrices num_players num_actions⟩
  else if game_type = CUSTOM then
    match payoff_matrices with
    | some mats =>
      (generate_custom_payoff_matrices num_actions mats).map
        (fun ms => ⟨num_players, num_actions, ms⟩)
    | none => .error "Invalid game type or missing payoff matrices."
  else .error "Invalid game type or missing payoff matrices."

/-- `self.payoff_matrices[player]`: Python list indexing, `IndexError` when
out of range. -/
def mat_at (g : Game) (player : ℕ) : Except String Tensor :=
  match g.payoff_matrices.get? player with
  | some t => .ok t
  | none => .error "IndexError"

/-- Left-to-right effectful map: the first `Except.error` aborts, matching a
Python loop/comprehension in which an exception propagates. -/
def exceptMap {α β : Type} (f : α → Except String β) : List α → Except String (List β)
  | [] => .ok []
  | x :: xs =>
    match f x with
    | .error e => .error e
    | .ok y => (exceptMap f xs).map (fun ys => y :: ys)

/-- `Game.get_payoff`: one payoff per player, `IndexError` if the matrix
list is too short for some `player < num_players`. -/
def get_payoff (g : Game) (actions : List ℕ) : Except String (List ℚ) :=
  exceptMap (fun player => (mat_at g player).map (fun t => t.val actions)) (List.range g.num_players)

/-! ## The equilibrium verifier (tester.py `collect_violations`)

A Python `dict` distribution is embedded as an association list with the
keys in insertion order; `distribution[k]` is a lookup that raises
`KeyError` when the key is absent. -/

abbrev Distribution := List (List ℕ × ℚ)

/-- `sum(distribution.values())`. -/
def dist_sum (d : Distribution) : ℚ := (d.map Prod.snd).sum

/-- `distribution[k]` — `KeyError` when the profile is missing. -/
def dist_lookup (d : Distribution) (k : List ℕ) : Except String ℚ :=
  match List.lookup k d with
  | some v => .ok v
  | none => .error "KeyError"

/-- `np.isclose(a, b, atol=1e-6)` with numpy's default `rtol=1e-5`:
`|a - b| ≤ atol + rtol * |b|`. -/
def np_isclose (a b : ℚ) : Bool := |a - b| ≤ 1 / 1000000 + 1 / 100000 * |b|

structure Violation where
  player : ℕ
  current_action : ℕ
  alt_action : ℕ
  magnitude : ℚ
deriving DecidableEq

/-- The heterogeneous list `collect_violations` returns: either a single
validation-failure message string, or the list of incentive-violation
records. -/
inductive ViolResult where
  | invalid (msg : String)
  | violations (vs : List Violation)
deriving DecidableEq

/-- `num_actions[player]` as used inside in-range loops. -/
def num_actions_at (g : Game) (player : ℕ) : ℕ := g.num_actions.getD player 0

/-- Left-to-right `sum(...)` over a generator of effectful terms; a raised
exception propagates from the first failing term. -/
def exceptSumGo {α : Type} (f : α → Except String ℚ) (acc : ℚ) : List α → Except String ℚ
  | [] => .ok acc
  | x :: xs =>
    match f x with
    | .error e => .error e
    | .ok v => exceptSumGo f (acc + v) xs

def exceptSum {α : Type} (f : α → Except String ℚ) (l : List α) : Except String ℚ :=
  exceptSumGo f 0 l

/-- One summand `distribution[a] * payoff_matrices[player][q]` where `a = p`
is the recommended profile and `q` is either `p` itself (lhs) or `p` with
the player's component swapped (rhs). -/
def viol_term (g : Game) (d : Distribution) (player : ℕ) (p q : List ℕ) : Except String ℚ :=
  match dist_lookup d p with
  | .error e => .error e
  | .ok prob => (mat_at g player).map (fun t => prob * t.val q)

/-- The profiles `a` with `a[player] == current` the two sums range over. -/
def relevant_profiles (g : Game) (player current : ℕ) : List (List ℕ) :=
  (actionProfiles g.num_actions).filter (fun p => p.get? player == some current)

/-- The body of the triple loop: compute `lhs` and `rhs` and record a
violation when `lhs < rhs - epsilon`. -/
def check_triple (g : Game) (d : Distribution) (eps : ℚ) (player current alt : ℕ) :
    Except String (Option Violation) :=
  match exceptSum (fun p => viol_term g d player p p) (relevant_profiles g player current) with
  | .error e => .error e
  | .ok lhs =>
    match exceptSum (fun p => viol_term g d player p (p.set player alt))
        (relevant_profiles g player current) with
    | .error e => .error e
    | .ok rhs =>
      .ok (if lhs < rhs - eps then some ⟨player, current, alt, rhs - lhs⟩ else none)

/-- Iteration order of the triple loop: players, then `current_action`, then
`alt_action ≠ current_action`. -/
def triples (g : Game) : List (ℕ × ℕ × ℕ) :=
  (List.range g.num_players).flatMap (fun pl =>
    (List.range (num_actions_at g pl)).flatMap (fun c =>
      ((List.range (num_actions_at g pl)).filter (fun a => c != a)).map (fun a => (pl, c, a))))

/-- `collect_violations(game, distribution, epsilon)`: the two fail-fast
precondition checks, then the incentive checks over every (player, current,
alt) triple.  A `KeyError`/`IndexError` raised mid-loop surfaces as
`Except.error`. -/
def collect_violations (g : Game) (d : Distribution) (eps : ℚ) : Except String ViolResult :=
  if !np_isclose (dist_sum d) 1 then .ok (.invalid "The probabilities do not sum to 1.")
  else if d.any (fun kv => decide (kv.2 < 0)) then
    .ok (.invalid "The distribution contains negative probabilities.")
  else
    (exceptMap (fun t => check_triple g d eps t.1 t.2.1 t.2.2) (triples g)).map
      (fun rs => .violations (rs.filterMap id))

/-! Pure (exception-free) values of the two sums, used to state what the
verifier computes.  They agree with the monadic computation whenever every
lookup succeeds. -/

/-- `payoff_i(q)` read off the game, defaulting to 0 out of range. -/
def payoff_at (g : Game) (player : ℕ) (q : List ℕ) : ℚ :=
  ((g.payoff_matrices.get? player).map (fun t => t.val q)).getD 0

/-- `distribution[p]` read as a total function, defaulting to 0. -/
def dist_prob (d : Distribution) (p : List ℕ) : ℚ := (List.lookup p d).getD 0

/-- The specification's `lhs`: `Σ_{a : a[i]=current} distribution[a] * payoff_i(a)`. -/
def lhs_val (g : Game) (d : Distribution) (player current : ℕ) : ℚ :=
  ((relevant_profiles g player current).map (fun p => dist_prob d p * payoff_at g player p)).sum

/-- The specification's `rhs`: the same sum with `a`'s player-component
replaced by `alt`. -/
def rhs_val (g : Game) (d : Distribution) (player current alt : ℕ) : ℚ :=
  ((relevant_profiles g player current).map
    (fun p => dist_prob d p * payoff_at g player (p.set player alt))).sum

/-- The violation list described by the specification: one record per triple
with `current ≠ alt` and `lhs < rhs - epsilon`, with magnitude `rhs - lhs`,
in loop order. -/
def spec_violations (g : Game) (d : Distribution) (eps : ℚ) : List Violation :=
  (triples g).filterMap (fun t =>
    if lhs_val g d t.1 t.2.1 < rhs_val g d t.1 t.2.1 t.2.2 - eps then
      some ⟨t.1, t.2.1, t.2.2, rhs_val g d t.1 t.2.1 t.2.2 - lhs_val g d t.1 t.2.1⟩
    else none)

/-! ## The swap-regret learner (sr.py `SwapRegretPlayer`) -/

/-- Mutable per-player learner state (`self` of `SwapRegretPlayer`). -/
structure PlayerState where
  num_actions : ℕ
  eta : ℚ
  player_index : ℕ
  loss_matrix : List ℕ → ℚ
  weights : List (List ℚ)
  p : List ℚ

/-- All entries of a payoff array, so that `np.max`/`np.min` can fold over
them. -/
def tensor_values (t : Tensor) : List ℚ := (actionProfiles t.shape).map t.val

/-- `np.max` of a nonempty value list (0 on the empty list, where numpy
raises instead; the claims only use nonempty tensors). -/
def np_max (l : List ℚ) : ℚ :=
  match l with
  | [] => 0
  | x :: xs => xs.foldl max x

/-- `np.min`, same convention as `np_max`. -/
def np_min (l : List ℚ) : ℚ :=
  match l with
  | [] => 0
  | x :: xs => xs.foldl min x

/-- The loss matrix built in `SwapRegretPlayer.__init__`: when
`max == min` the normalized matrix is `np.zeros_like(payoff)` and the loss
is `1 - 0`; otherwise the payoff is affinely normalized into `[0, 1]` and
the loss is its complement. -/
def loss_matrix_of (payoff : Tensor) : List ℕ → ℚ :=
  let mx := np_max (tensor_values payoff)
  let mn := np_min (tensor_values payoff)
  if mx = mn then fun _ => 1 - 0
  else fun a => 1 - (payoff.val a - mn) / (mx - mn)

/-- `SwapRegretPlayer.__init__`: ones weight matrix, uniform
meta-distribution. -/
def player_init (payoff : Tensor) (num_actions player_index : ℕ) (eta : ℚ) : PlayerState :=
  { num_actions := num_actions
    eta := eta
    player_index := player_index
    loss_matrix := loss_matrix_of payoff
    weights := List.replicate num_actions (List.replicate num_actions 1)
    p := List.replicate num_actions (1 / (num_actions : ℚ)) }

/-- The loss vector of `update_distributions`:
`losses[i] = loss_matrix[profile with our component replaced by i]`. -/
def compute_losses (s : PlayerState) (profile : List ℕ) : List ℚ :=
  (List.range s.num_actions).map (fun i => s.loss_matrix (profile.set s.player_index i))

/-- `self.weights[j] -= eta * (losses * p[j])` for every row `j`. -/
def updated_weights (s : PlayerState) (profile : List ℕ) : List (List ℚ) :=
  (List.range s.num_actions).map (fun j =>
    List.zipWith (fun w l => w - s.eta * (l * s.p.getD j 0))
      (s.weights.getD j []) (compute_losses s profile))

/-- `self.weights = np.maximum(self.weights, 0)`. -/
def clamped_weights (s : PlayerState) (profile : List ℕ) : List (List ℚ) :=
  (updated_weights s profile).map (fun row => row.map (fun x => max x 0))

/-- `row / row.sum()` in numpy: dividing a clamped (entrywise non-negative)
row by its sum yields finite entries when the sum is nonzero, and non-finite
entries (`0/0 = nan`) when the sum — hence every entry — is zero.
Non-finite values are modelled as `none`. -/
def normalize_row (row : List ℚ) : List (Option ℚ) :=
  let s := row.sum
  row.map (fun x => if s = 0 then none else some (x / s))

/-- The row-normalized transition matrix `Q` handed to
`self._stationary_distribution`. -/
def transition_matrix (s : PlayerState) (profile : List ℕ) : List (List (Option ℚ)) :=
  (clamped_weights s profile).map normalize_row

def all_finite (m : List (List (Option ℚ))) : Bool :=
  m.all (fun row => row.all (fun x => x.isSome))

/-- numpy's input validation inside `np.linalg.eig`: a matrix containing a
non-finite entry raises `LinAlgError("Array must not contain infs or
NaNs")`. -/
def assert_finite (m : List (List (Option ℚ))) : Except String (List (List ℚ)) :=
  if all_finite m then .ok (m.map (fun row => row.map (fun x => x.getD 0)))
  else .error "Array must not contain infs or NaNs"

/-- `update_distributions` up to the hand-off of `Q` to `np.linalg.eig`
inside `_stationary_distribution`: the loss computation, the per-row weight
update, the clamp, the row normalization, and eig's finiteness validation —
the only exception path a zero weight row can take.  On success it returns
the finite matrix `Q` the eigensolver then factorizes (the eigendecomposition
itself is floating-point LAPACK code outside this embedding). -/
def update_distributions_checked (s : PlayerState) (profile : List ℕ) :
    Except String (List (List ℚ)) :=
  assert_finite (transition_matrix s profile)

/-! ## The solver (sr.py `SwapRegretSolver`) -/

/-- `np.max` over the `num_actions` list. -/
def list_max (l : List ℕ) : ℕ :=
  match l with
  | [] => 0
  | x :: xs => xs.foldl max x

/-- Python's `int(...)` on a real value: truncation toward zero. -/
def python_int (x : ℚ) : ℤ := if 0 ≤ x then ⌊x⌋ else ⌈x⌉

/-- The default iteration count
`int(4 * max(num_actions)**2 * log(max(num_actions)) / epsilon**2)`.
`logMaxA` is the (rational) value the float call
`math.log(np.max(num_actions))` returns. -/
def sr_default_T (num_actions : List ℕ) (logMaxA eps : ℚ) : ℤ :=
  python_int ((4 * (list_max num_actions : ℚ) ^ 2 * logMaxA) / eps ^ 2)

/-- `SwapRegretSolver.__init__`'s choice of `self.T`: `if T:` keeps a
supplied truthy (nonzero, non-`None`) value and otherwise derives the
default. -/
def sr_T (T_arg : Option ℤ) (num_actions : List ℕ) (logMaxA eps : ℚ) : ℤ :=
  match T_arg with
  | some t => if t ≠ 0 then t else sr_default_T num_actions logMaxA eps
  | none => sr_default_T num_actions logMaxA eps

/-- `SwapRegretSolver.__init__`'s choice of `self.learning_rate`:
`if learning_rate:` keeps a truthy supplied value, else
`math.sqrt(math.log(np.max(num_actions)) / self.T)`; the float `math.sqrt`
is abstracted as `sqrt_fn`. -/
def sr_learning_rate (lr_arg : Option ℚ) (sqrt_fn : ℚ → ℚ) (logMaxA : ℚ) (T : ℤ) : ℚ :=
  match lr_arg with
  | some r => if r ≠ 0 then r else sqrt_fn (logMaxA / (T : ℚ))
  | none => sqrt_fn (logMaxA / (T : ℚ))

/-- What the specification says the default `T` is: the ceiling of the same
expression. -/
def sr_T_spec (num_actions : List ℕ) (logMaxA eps : ℚ) : ℤ :=
  ⌈(4 * (list_max num_actions : ℚ) ^ 2 * logMaxA) / eps ^ 2⌉

/-- `action_counts[action_profile] += 1` with dict semantics: the first
matching key is incremented, a missing key is appended with count 1. -/
def bump : List (List ℕ × ℕ) → List ℕ → List (List ℕ × ℕ)
  | [], k => [(k, 1)]
  | (k', c) :: rest, k =>
    if k' = k then (k', c + 1) :: rest else (k', c) :: bump rest k

/-- The `action_counts` dict after the first `t` rounds of
`SwapRegretSolver.solve`.  The per-round sampling
(`np.random.choice` through each player's strategy) is abstracted as an
oracle `sample` giving round `t`'s realized joint action profile; the
learner updates performed each round mutate only learner state, which the
returned distribution does not read, so they do not appear in the fold. -/
def run_counts (sample : ℕ → List ℕ) : ℕ → List (List ℕ × ℕ)
  | 0 => []
  | t + 1 => bump (run_counts sample t) (sample t)

/-- `SwapRegretSolver.solve`: run exactly `T` rounds, then normalize the
visit counts by `T` into the empirical distribution. -/
def solve (T : ℕ) (sample : ℕ → List ℕ) : Distribution :=
  (run_counts sample T).map (fun kv => (kv.1, (kv.2 : ℚ) / (T : ℚ)))

/-! ## Concrete instances evaluated by the theorems below -/

/-- A degenerate value oracle for generators whose payoffs are irrelevant. -/
def rand0 : ℕ → List ℕ → ℚ := fun _ _ => 0

/-- One player with two actions; payoff 0 under action 0 and 1 under
action 1. -/
def gEx : Game := ⟨1, [2], [⟨[2], fun p => (p.headD 0 : ℚ)⟩]⟩

/-- A sparse empirical distribution over `gEx`: the zero-probability
profile `(1,)` is omitted, as `SwapRegretSolver.solve` omits unvisited
profiles. -/
def dSparse : Distribution := [([0], 1)]

/-- A full-support distribution over `gEx`. -/
def dFull : Distribution := [([0], 1 / 2), ([1], 1 / 2)]

/-- Sums to exactly 1 and its only negative entry is `-1e-5`, inside the
`-1e-4` tolerance the specification describes. -/
def dTinyNeg : Distribution := [([0], -(1 / 100000)), ([1], 1 + 1 / 100000)]

/-- A learner state one update away from a clamped all-zero row: with
`eta = 1`, unit losses and `p = [1, 0]`, row 0 becomes `[-9/10, -9/10]`
before the clamp and `[0, 0]` after it. -/
def sZeroRow : PlayerState :=
  { num_actions := 2, eta := 1, player_index := 0, loss_matrix := fun _ => 1,
    weights := [[1 / 10, 1 / 10], [1, 1]], p := [1, 0] }

/-- The IEEE double returned by `math.log(2)`, as an exact rational
(`0x3FE62E42FEFA39EF`). -/
def log2_float : ℚ := 6243314768165359 / 9007199254740992

/-- A constant payoff tensor: two actions, every payoff equal to 5. -/
def const_tensor : Tensor := ⟨[2], fun _ => 5⟩

/-- A single correctly-shaped matrix for a two-player 2×2 game. -/
def mats_one_2x2 : List Tensor := [⟨[2, 2], fun _ => 0⟩]

/-- A two-player game holding only one payoff matrix (constructible via
CUSTOM, since the matrix count is never validated). -/
def game_short : Game := ⟨2, [2, 2], mats_one_2x2⟩

/-- A tensor whose shape `[3]` mismatches the action space `[2]`. -/
def bad_shape_tensor : Tensor := ⟨[3], fun _ => 0⟩

/-! ## Helper lemmas -/

theorem exceptMap_ok {α β : Type} (f : α → Except String β) (gf : α → β) :
    ∀ l : List α, (∀ x ∈ l, f x = .ok (gf x)) → exceptMap f l = .ok (l.map gf)
  | [], _ => rfl
  | x :: xs, h => by
    have hx := h x (List.mem_cons_self x xs)
    have ih := exceptMap_ok f gf xs (fun y hy => h y (List.mem_cons_of_mem x hy))
    simp [exceptMap, hx, ih, Except.map]

theorem exceptMap_error {α β : Type} (f : α → Except String β) (e : String) :
    ∀ l : List α, (∀ x ∈ l, ∀ e', f x = .error e' → e' = e) →
      (∃ x ∈ l, f x = .error e) → exceptMap f l = .error e
  | [], _, hex => by simp at hex
  | x :: xs, h, hex => by
    cases hfx : f x with
    | error e' =>
      have := h x (List.mem_cons_self x xs) e' hfx
      subst this
      simp [exceptMap, hfx]
    | ok y =>
      obtain ⟨z, hz, hfz⟩ := hex
      rcases List.mem_cons.mp hz with rfl | hz'
      · rw [hfx] at hfz; exact absurd hfz (by simp)
      · have ih := exceptMap_error f e xs
          (fun y hy => h y (List.mem_cons_of_mem x hy)) ⟨z, hz', hfz⟩
        simp [exceptMap, hfx, ih, Except.map]

theorem exceptSumGo_ok {α : Type} (f : α → Except String ℚ) (gf : α → ℚ) :
    ∀ (l : List α) (acc : ℚ), (∀ x ∈ l, f x = .ok (gf x)) →
      exceptSumGo f acc l = .ok (acc + (l.map gf).sum)
  | [], acc, _ => by simp [exceptSumGo]
  | x :: xs, acc, h => by
    have hx := h x (List.mem_cons_self x xs)
    have ih := exceptSumGo_ok f gf xs (acc + gf x) (fun y hy => h y (List.mem_cons_of_mem x hy))
    simp [exceptSumGo, hx, ih, List.map_cons, List.sum_cons, add_assoc]

theorem exceptSum_ok {α : Type} (f : α → Except String ℚ) (gf : α → ℚ) (l : List α)
    (h : ∀ x ∈ l, f x = .ok (gf x)) : exceptSum f l = .ok ((l.map gf).sum) := by
  simpa [exceptSum] using exceptSumGo_ok f gf l 0 h

theorem filterMap_id_map {α β : Type} (f : α → Option β) (l : List α) :
    (l.map f).filterMap id = l.filterMap f := by
  rw [List.filterMap_map]; rfl

theorem mem_triples (g : Game) (pl c a : ℕ) :
    (pl, c, a) ∈ triples g ↔
      pl < g.num_players ∧ c < num_actions_at g pl ∧ a < num_actions_at g pl ∧ c ≠ a := by
  simp only [triples, List.mem_flatMap, List.mem_map, List.mem_filter, List.mem_range,
    Prod.mk.injEq, bne_iff_ne]
  constructor
  · rintro ⟨pl', hpl, c', hc', a', ⟨⟨ha', hne⟩, rfl, rfl, rfl⟩⟩
    exact ⟨hpl, hc', ha', hne⟩
  · rintro ⟨hpl, hc, ha, hne⟩
    exact ⟨pl, hpl, c, hc, a, ⟨ha, hne⟩, rfl, rfl, rfl⟩

theorem viol_term_ok (g : Game) (d : Distribution) (pl : ℕ) (p q : List ℕ)
    (hp : (List.lookup p d).isSome) (hpl : pl < g.payoff_matrices.length) :
    viol_term g d pl p q = .ok (dist_prob d p * payoff_at g pl q) := by
  obtain ⟨v, hv⟩ := Option.isSome_iff_exists.mp hp
  have hm : g.payoff_matrices[pl]? = some (g.payoff_matrices.get ⟨pl, hpl⟩) :=
    List.getElem?_eq_getElem hpl
  simp [viol_term, dist_lookup, hv, mat_at, hm, dist_prob, payoff_at, Except.map]

theorem check_triple_ok (g : Game) (d : Distribution) (eps : ℚ) (pl c a : ℕ)
    (hmats : g.num_players ≤ g.payoff_matrices.length) (hpl : pl < g.num_players)
    (htot : ∀ p ∈ actionProfiles g.num_actions, (List.lookup p d).isSome) :
    check_triple g d eps pl c a =
      .ok (if lhs_val g d pl c < rhs_val g d pl c a - eps then
        some ⟨pl, c, a, rhs_val g d pl c a - lhs_val g d pl c⟩ else none) := by
  have hpl' : pl < g.payoff_matrices.length := lt_of_lt_of_le hpl hmats
  have h1 : ∀ p ∈ relevant_profiles g pl c,
      viol_term g d pl p p = .ok (dist_prob d p * payoff_at g pl p) := fun p hp =>
    viol_term_ok g d pl p p (htot p (List.mem_filter.mp hp).1) hpl'
  have h2 : ∀ p ∈ relevant_profiles g pl c,
      viol_term g d pl p (p.set pl a) = .ok (dist_prob d p * payoff_at g pl (p.set pl a)) :=
    fun p hp => viol_term_ok g d pl p _ (htot p (List.mem_filter.mp hp).1) hpl'
  simp only [check_triple, exceptSum_ok _ _ _ h1, exceptSum_ok _ _ _ h2]
  rfl

theorem find_bad_shape_eq_none (na : List ℕ) :
    ∀ (mats : List Tensor) (i : ℕ),
      find_bad_shape na mats i = none ↔ ∀ m ∈ mats, m.shape = na
  | [], i => by simp [find_bad_shape]
  | m :: rest, i => by
    by_cases h : m.shape = na
    · simp [find_bad_shape, h, find_bad_shape_eq_none na rest (i + 1)]
    · simp [find_bad_shape, h]

theorem bump_snd_sum (k : List ℕ) : ∀ c : List (List ℕ × ℕ),
    ((bump c k).map Prod.snd).sum = ((c.map Prod.snd).sum) + 1
  | [] => by simp [bump]
  | (k', n) :: rest => by
    by_cases h : k' = k
    · simp [bump, h]
      omega
    · simp [bump, h, bump_snd_sum k rest]
      omega

theorem bump_pos (k : List ℕ) : ∀ c : List (List ℕ × ℕ), (∀ kv ∈ c, 1 ≤ kv.2) →
    ∀ kv ∈ bump c k, 1 ≤ kv.2
  | [], _, kv, hkv => by
    simp [bump] at hkv
    subst hkv
    exact le_refl 1
  | (k', n) :: rest, h, kv, hkv => by
    by_cases hk : k' = k
    · simp [bump, hk] at hkv
      rcases hkv with rfl | hkv'
      · simp
      · exact h kv (List.mem_cons_of_mem _ hkv')
    · simp only [bump, if_neg hk] at hkv
      rcases List.mem_cons.mp hkv with rfl | hkv'
      · exact h (k', n) (List.mem_cons_self _ _)
      · exact bump_pos k rest (fun y hy => h y (List.mem_cons_of_mem _ hy)) kv hkv'

theorem run_counts_sum (sample : ℕ → List ℕ) :
    ∀ T : ℕ, ((run_counts sample T).map Prod.snd).sum = T
  | 0 => rfl
  | T + 1 => by simp [run_counts, bump_snd_sum, run_counts_sum sample T]

theorem run_counts_pos (sample : ℕ → List ℕ) :
    ∀ T : ℕ, ∀ kv ∈ run_counts sample T, 1 ≤ kv.2
  | 0 => by simp [run_counts]
  | T + 1 => bump_pos (sample T) (run_counts sample T) (run_counts_pos sample T)

theorem sum_map_div (T : ℚ) : ∀ l : List (List ℕ × ℕ),
    (l.map (fun kv => ((kv.2 : ℕ) : ℚ) / T)).sum = (((l.map Prod.snd).sum : ℕ) : ℚ) / T
  | [] => by simp
  | kv :: rest => by
    simp only [List.map_cons, List.sum_cons, sum_map_div T rest]
    push_cast
    ring

/-! ## The claims -/

/-- C1: for every game and distribution passing the verifier's precondition
checks (total mass `np.isclose` to 1, no negative entry) and defined on
every joint action profile, `collect_violations` records a violation record
`{player, current_action, alt_action, magnitude}` for exactly those triples
`(player, current, alt)` with `current ≠ alt` such that `lhs < rhs - eps`,
where `lhs = Σ_{a : a[player]=current} distribution[a] * payoff_player(a)`,
`rhs` is the same sum with `a`'s player-component replaced by `alt`, and
`magnitude = rhs - lhs`. -/
theorem collect_violations_matches_spec (g : Game) (d : Distribution) (eps : ℚ)
    (hmats : g.num_players ≤ g.payoff_matrices.length)
    (htot : ∀ p ∈ actionProfiles g.num_actions, (List.lookup p d).isSome)
    (hsum : np_isclose (dist_sum d) 1 = true)
    (hneg : ∀ kv ∈ d, 0 ≤ kv.2) :
    collect_violations g d eps = .ok (.violations (spec_violations g d eps)) ∧
    ∀ pl c a m, (⟨pl, c, a, m⟩ : Violation) ∈ spec_violations g d eps ↔
      pl < g.num_players ∧ c < num_actions_at g pl ∧ a < num_actions_at g pl ∧ c ≠ a ∧
      lhs_val g d pl c < rhs_val g d pl c a - eps ∧
      m = rhs_val g d pl c a - lhs_val g d pl c := by
  constructor
  · have hany : d.any (fun kv => decide (kv.2 < 0)) = false := by
      rw [List.any_eq_false]
      intro kv hkv
      simp [not_lt.mpr (hneg kv hkv)]
    have hmap : exceptMap (fun t => check_triple g d eps t.1 t.2.1 t.2.2) (triples g) =
        .ok ((triples g).map (fun t =>
          if lhs_val g d t.1 t.2.1 < rhs_val g d t.1 t.2.1 t.2.2 - eps then
            some ⟨t.1, t.2.1, t.2.2, rhs_val g d t.1 t.2.1 t.2.2 - lhs_val g d t.1 t.2.1⟩
          else none)) := by
      apply exceptMap_ok
      rintro ⟨pl, c, a⟩ ht
      exact check_triple_ok g d eps pl c a hmats ((mem_triples g pl c a).mp ht).1 htot
    simp only [collect_violations, hsum, Bool.not_true, Bool.false_eq_true, if_false, hany,
      hmap, Except.map, filterMap_id_map, spec_violations]
  · intro pl c a m
    simp only [spec_violations, List.mem_filterMap]
    constructor
    · rintro ⟨⟨pl', c', a'⟩, ht, hif⟩
      by_cases hcond : lhs_val g d pl' c' < rhs_val g d pl' c' a' - eps
      · rw [if_pos hcond] at hif
        injection hif with hif
        obtain ⟨rfl, rfl, rfl, hmag⟩ := (Violation.mk.injEq _ _ _ _ _ _ _ _).mp hif
        obtain ⟨h1, h2, h3, h4⟩ := (mem_triples g _ _ _).mp ht
        exact ⟨h1, h2, h3, h4, hcond, hmag.symm⟩
      · rw [if_neg hcond] at hif
        exact absurd hif (by simp)
    · rintro ⟨hpl, hc, ha, hne, hlt, rfl⟩
      exact ⟨(pl, c, a), (mem_triples g pl c a).mpr ⟨hpl, hc, ha, hne⟩, by rw [if_pos hlt]⟩

/-- Witness for C1: the verifier run on the concrete game `gEx` and the
full-support distribution `dFull`. -/
theorem collect_violations_matches_spec_witness :
    collect_violations gEx dFull (1 / 100) =
      .ok (.violations (spec_violations gEx dFull (1 / 100))) :=
  (collect_violations_matches_spec gEx dFull (1 / 100) (by decide) (by decide)
    (by norm_num [np_isclose, dist_sum, dFull]) (by norm_num [dFull])).1

/-- C2: during `update_distributions`, if after clamping negative entries
to zero some row of the weights matrix sums to zero, the update raises a
fatal numerical-degeneracy error (the `0/0` division produces non-finite
entries and `np.linalg.eig` raises `LinAlgError` on them) rather than
returning a degenerate transition matrix. -/
theorem update_zero_row_raises (s : PlayerState) (profile : List ℕ) (j : ℕ) (row : List ℚ)
    (hrow : (clamped_weights s profile).get? j = some row)
    (hne : row ≠ []) (hz : row.sum = 0) :
    update_distributions_checked s profile = .error "Array must not contain infs or NaNs" := by
  have hmem : row ∈ clamped_weights s profile := List.get?_mem hrow
  have hQ : normalize_row row ∈ transition_matrix s profile := List.mem_map_of_mem _ hmem
  have hbad : (normalize_row row).all (fun x => x.isSome) = false := by
    obtain ⟨x, xs, rfl⟩ := List.exists_cons_of_ne_nil hne
    simp [normalize_row, hz]
  have hfin : all_finite (transition_matrix s profile) = false := by
    rw [all_finite, List.all_eq_false]
    exact ⟨normalize_row row, hQ, by simp [hbad]⟩
  simp [update_distributions_checked, assert_finite, hfin]

/-- Witness for C2: the concrete state `sZeroRow`, whose row 0 is clamped
to `[0, 0]` by the update on profile `(0,)`. -/
theorem update_zero_row_raises_witness :
    update_distributions_checked sZeroRow [0] = .error "Array must not contain infs or NaNs" :=
  update_zero_row_raises sZeroRow [0] 0 [0, 0]
    (by norm_num [clamped_weights, updated_weights, compute_losses, sZeroRow, List.range_succ])
    (by simp) (by norm_num)

/-- C6 counterexample: `dTinyNeg` sums to exactly 1 and its only negative
entry is `-1e-5`, inside the claimed `-1e-4` tolerance, yet
`collect_violations` reports the negative-probability validation failure
instead of proceeding to the incentive checks. -/
theorem tiny_negative_rejected :
    dist_sum dTinyNeg = 1 ∧ (∀ kv ∈ dTinyNeg, -(1 / 10000) ≤ kv.2) ∧
    collect_violations gEx dTinyNeg (1 / 100) =
      .ok (.invalid "The distribution contains negative probabilities.") := by
  refine ⟨by norm_num [dist_sum, dTinyNeg], by norm_num [dTinyNeg], ?_⟩
  norm_num [collect_violations, np_isclose, dist_sum, dTinyNeg, List.any_cons]

/-- C6 (amended): `collect_violations` reports a validation failure exactly
when the total mass fails numpy's `isclose` test against 1 (tolerance
`1e-6 + 1e-5·|1|`) or some entry is strictly negative — any negative entry,
however tiny, is rejected before the incentive checks. -/
theorem validation_failure_iff (g : Game) (d : Distribution) (eps : ℚ) :
    (∃ msg, collect_violations g d eps = .ok (.invalid msg)) ↔
      np_isclose (dist_sum d) 1 = false ∨ ∃ kv ∈ d, kv.2 < 0 := by
  unfold collect_violations
  cases h1 : np_isclose (dist_sum d) 1 with
  | false =>
    simp only [h1, Bool.not_false, if_true]
    exact ⟨fun _ => Or.inl (by simp), fun _ => ⟨_, rfl⟩⟩
  | true =>
    simp only [Bool.not_true, Bool.false_eq_true, if_false]
    cases h2 : d.any (fun kv => decide (kv.2 < 0)) with
    | true =>
      simp only [if_true]
      constructor
      · intro _
        exact Or.inr (by simpa [List.any_eq_true] using h2)
      · intro _
        exact ⟨_, rfl⟩
    | false =>
      simp only [Bool.false_eq_true, if_false]
      constructor
      · rintro ⟨msg, hmsg⟩
        cases hr : exceptMap (fun t => check_triple g d eps t.1 t.2.1 t.2.2) (triples g) with
        | error e => rw [hr] at hmsg; exact absurd hmsg (by simp [Except.map])
        | ok rs => rw [hr] at hmsg; exact absurd hmsg (by simp [Except.map])
      · rintro (hfalse | ⟨kv, hkv, hlt⟩)
        · simp at hfalse
        · have : d.any (fun kv => decide (kv.2 < 0)) = true :=
            List.any_eq_true.mpr ⟨kv, hkv, by simpa using hlt⟩
          rw [h2] at this
          exact absurd this (by simp)

/-- C7 (code bug): `dSparse` sums to 1 with non-negative entries — a valid
Distribution that merely omits the zero-probability profile `(1,)` — yet
`collect_violations` raises `KeyError` at the first incentive sum that
touches the omitted profile instead of treating it as probability zero. -/
theorem sparse_distribution_keyerror :
    dist_sum dSparse = 1 ∧ (∀ kv ∈ dSparse, 0 ≤ kv.2) ∧
    collect_violations gEx dSparse (1 / 100) = .error "KeyError" := by
  refine ⟨by norm_num [dist_sum, dSparse], by norm_num [dSparse], ?_⟩
  have h1 : List.lookup [1] dSparse = none := rfl
  have h0 : List.lookup [0] dSparse = some 1 := rfl
  have hs : np_isclose (dist_sum dSparse) 1 = true := by
    norm_num [np_isclose, dist_sum, dSparse]
  have hany : dSparse.any (fun kv => decide (kv.2 < 0)) = false := by
    norm_num [dSparse]
  norm_num [collect_violations, hs, hany, gEx, triples, num_actions_at,
    check_triple, relevant_profiles, actionProfiles, viol_term, dist_lookup, mat_at,
    exceptSum, exceptSumGo, exceptMap, h0, h1, List.filter, List.range_succ, Except.map]

/-- C3 counterexample: with `num_actions = [2, 2]` and the default
`epsilon = 0.01`, the code's `int(...)` truncation gives `T = 110903` while
the claimed ceiling gives `110904` (`logMaxA` is the IEEE double
`math.log(2)` returns, and `4·2²·ln 2/0.01² ≈ 110903.55` is not an
integer). -/
theorem sr_default_T_not_ceil :
    sr_T none [2, 2] log2_float (1 / 100) = 110903 ∧
    sr_T_spec [2, 2] log2_float (1 / 100) = 110904 ∧ (110903 : ℤ) ≠ 110904 := by
  refine ⟨?_, ?_, by decide⟩
  · show sr_default_T [2, 2] log2_float (1 / 100) = 110903
    have hx : (0 : ℚ) ≤ 4 * (list_max [2, 2] : ℚ) ^ 2 * log2_float / (1 / 100) ^ 2 := by
      norm_num [list_max, log2_float]
    rw [sr_default_T, python_int, if_pos hx, Int.floor_eq_iff]
    norm_num [list_max, log2_float]
  · rw [sr_T_spec, Int.ceil_eq_iff]
    norm_num [list_max, log2_float]

/-- C3 (amended): the default `T` is the `int(...)` truncation (floor, for
the positive values at hand) of `4·maxActions²·ln(maxActions)/epsilon²`,
not its ceiling; an explicitly supplied *nonzero* `T` or learning rate is
used exactly as given, while `T = 0` or `learning_rate = 0.0` are treated
as unsupplied by Python truthiness and replaced by the derived defaults. -/
theorem sr_config_amended (t : ℤ) (r : ℚ) (num_actions : List ℕ) (logMaxA eps : ℚ)
    (sqrt_fn : ℚ → ℚ) (T : ℤ) (ht : t ≠ 0) (hr : r ≠ 0) :
    sr_T none num_actions logMaxA eps =
      python_int (4 * (list_max num_actions : ℚ) ^ 2 * logMaxA / eps ^ 2) ∧
    sr_T (some t) num_actions logMaxA eps = t ∧
    sr_learning_rate (some r) sqrt_fn logMaxA T = r ∧
    sr_learning_rate none sqrt_fn logMaxA T = sqrt_fn (logMaxA / (T : ℚ)) := by
  refine ⟨rfl, ?_, ?_, rfl⟩
  · simp [sr_T, ht]
  · simp [sr_learning_rate, hr]

/-- Witness for C3's amended statement: an explicit `T = 7` and learning
rate `1/2` are kept verbatim. -/
theorem sr_config_amended_witness :
    sr_T (some 7) [2] 1 1 = 7 ∧ sr_learning_rate (some (1 / 2)) id 1 5 = 1 / 2 := by
  have h := sr_config_amended 7 (1 / 2) [2] 1 1 id 5 (by decide) (by norm_num)
  exact ⟨h.2.1, h.2.2.1⟩

/-- C4 counterexample: for the constant payoff tensor `const_tensor`
(`max == min`), the per-round loss vector computed in
`update_distributions` is the all-ones vector `[1, 1]`, not the zero
vector: the degenerate branch sets the normalized payoff to zero, so the
loss `1 - 0` is one everywhere. -/
theorem const_payoff_losses_ones :
    compute_losses (player_init const_tensor 2 0 (1 / 10)) [0] = [1, 1] ∧
    ([1, 1] : List ℚ) ≠ [0, 0] := by
  constructor
  · norm_num [compute_losses, player_init, loss_matrix_of, const_tensor, tensor_values,
      actionProfiles, np_max, np_min, List.range_succ]
  · simp

/-- C4 (amended): for every player whose payoff tensor is constant
(`max == min`), the loss normalization takes the degenerate
`np.zeros_like` branch — performing no division — and the resulting loss
is *one* for every action profile, so every per-round loss vector computed
in `update_distributions` is the all-ones vector. -/
theorem const_payoff_loss_amended (t : Tensor) (na pi : ℕ) (eta : ℚ) (profile : List ℕ)
    (h : np_max (tensor_values t) = np_min (tensor_values t)) :
    (∀ a, (player_init t na pi eta).loss_matrix a = 1) ∧
    compute_losses (player_init t na pi eta) profile = List.replicate na 1 := by
  have hl : (player_init t na pi eta).loss_matrix = fun _ => 1 - 0 := by
    simp [player_init, loss_matrix_of, h]
  constructor
  · intro a
    rw [hl]
    norm_num
  · rw [List.eq_replicate_iff]
    constructor
    · simp [compute_losses, player_init]
    · intro b hb
      simp only [compute_losses, List.mem_map] at hb
      obtain ⟨i, _, rfl⟩ := hb
      rw [hl]
      norm_num

/-- Witness for C4's amended statement: the constant tensor `const_tensor`
yields the all-ones loss vector. -/
theorem const_payoff_loss_amended_witness :
    compute_losses (player_init const_tensor 2 0 (1 / 10)) [0] = List.replicate 2 1 :=
  (const_payoff_loss_amended const_tensor 2 0 (1 / 10) [0]
    (by norm_num [tensor_values, const_tensor, actionProfiles, np_max, np_min,
      List.range_succ])).2

/-- C5 counterexample: `Game(2, [3, 3], CHICKEN)` passes the chicken
validation (`num_actions[0] == num_actions[1] ≥ 2`) and constructs
successfully, but its payoff tensors have shape `[2, 2]`, not the joint
action space `[3, 3]` — the shape invariant fails and no error is
raised. -/
theorem chicken_shape_mismatch :
    Except.map (fun g => g.payoff_matrices.map Tensor.shape)
      (game_init 2 [3, 3] CHICKEN none rand0) = .ok [[2, 2], [2, 2]] ∧
    [[2, 2], [2, 2]] ≠ [[3, 3], [3, 3]] := by
  constructor
  · rfl
  · decide

/-- C5 (amended): RANDOM-, CONGESTION- and CUSTOM-constructed games always
carry payoff tensors of exactly the joint-action-space shape, and CUSTOM
construction fails on any mismatched tensor; for CHICKEN the invariant
holds only in the `num_actions = [2, 2]` case — equal action counts above
two construct successfully with 2×2 tensors (the counterexample). -/
theorem game_shapes_amended :
    (∀ np na rand g, game_init np na RANDOM none rand = .ok g →
      ∀ t ∈ g.payoff_matrices, t.shape = na) ∧
    (∀ np na rand g, game_init np na CONGESTION none rand = .ok g →
      ∀ t ∈ g.payoff_matrices, t.shape = na) ∧
    (∀ np na rand mats g, game_init np na CUSTOM (some mats) rand = .ok g →
      ∀ t ∈ g.payoff_matrices, t.shape = na) ∧
    (∀ np na rand mats, (∃ t ∈ mats, t.shape ≠ na) →
      (game_init np na CUSTOM (some mats) rand).isOk = false) ∧
    (∀ rand g, game_init 2 [2, 2] CHICKEN none rand = .ok g →
      ∀ t ∈ g.payoff_matrices, t.shape = [2, 2]) := by
  refine ⟨?_, ?_, ?_, ?_, ?_⟩
  · intro np na rand g hg t ht
    simp only [game_init, RANDOM, if_pos, Except.ok.injEq] at hg
    subst hg
    simp only [generate_random_payoff_matrices, List.mem_map] at ht
    obtain ⟨i, _, rfl⟩ := ht
    rfl
  · intro np na rand g hg t ht
    simp only [game_init, RANDOM, CHICKEN, CONGESTION] at hg
    norm_num at hg
    subst hg
    simp only [generate_congestion_payoff_matrices, List.mem_map] at ht
    obtain ⟨i, _, rfl⟩ := ht
    rfl
  · intro np na rand mats g hg t ht
    simp only [game_init, RANDOM, CHICKEN, CONGESTION, CUSTOM] at hg
    norm_num [generate_custom_payoff_matrices] at hg
    cases hfb : find_bad_shape na mats 0 with
    | some i => rw [hfb] at hg; exact absurd hg (by simp [Except.map])
    | none =>
      rw [hfb] at hg
      simp only [Except.map, Except.ok.injEq] at hg
      subst hg
      exact (find_bad_shape_eq_none na mats 0).mp hfb t ht
  · intro np na rand mats hex
    simp only [game_init, RANDOM, CHICKEN, CONGESTION, CUSTOM]
    norm_num [generate_custom_payoff_matrices]
    cases hfb : find_bad_shape na mats 0 with
    | some i => simp [Except.map, Except.isOk, Except.toBool]
    | none =>
      obtain ⟨t, ht, hts⟩ := hex
      exact absurd ((find_bad_shape_eq_none na mats 0).mp hfb t ht) hts
  · intro rand g hg t ht
    simp only [game_init, RANDOM, CHICKEN, generate_chicken_payoff_matrices] at hg
    norm_num [Except.map] at hg
    subst hg
    simp only [List.mem_cons, List.mem_singleton, List.not_mem_nil, or_false] at ht
    rcases ht with rfl | rfl
    · rfl
    · rfl

/-- Witness for C5's amended statement: supplying a `[3]`-shaped tensor for
a `[2]`-action game makes CUSTOM construction fail. -/
theorem game_shapes_amended_witness :
    (game_init 1 [2] CUSTOM (some [bad_shape_tensor]) rand0).isOk = false :=
  game_shapes_amended.2.2.2.1 1 [2] rand0 [bad_shape_tensor]
    ⟨bad_shape_tensor, List.mem_singleton.mpr rfl, by decide⟩

/-- C9: for every `T ≥ 1` and every realized sample sequence,
`SwapRegretSolver.solve` runs exactly `T` rounds (the visit counts total
`T`, with no early stopping) and returns the counts divided by `T`, so
every entry of the returned distribution is positive and the entries sum
to exactly 1 (in particular within `1e-6`). -/
theorem solve_runs_T_rounds (T : ℕ) (sample : ℕ → List ℕ) (hT : 1 ≤ T) :
    ((run_counts sample T).map Prod.snd).sum = T ∧
    ((solve T sample).map Prod.snd).sum = 1 ∧
    ∀ kv ∈ solve T sample, 0 < kv.2 := by
  have hT0 : ((T : ℕ) : ℚ) ≠ 0 := Nat.cast_ne_zero.mpr (by omega)
  refine ⟨run_counts_sum sample T, ?_, ?_⟩
  · have hmap : (solve T sample).map Prod.snd
        = (run_counts sample T).map (fun kv => ((kv.2 : ℕ) : ℚ) / (T : ℚ)) := by
      simp [solve, List.map_map]
    rw [hmap, sum_map_div, run_counts_sum]
    exact div_self hT0
  · intro kv hkv
    simp only [solve, List.mem_map] at hkv
    obtain ⟨⟨k, c⟩, hmem, rfl⟩ := hkv
    have hc : 1 ≤ c := run_counts_pos sample T (k, c) hmem
    have hcq : (0 : ℚ) < (c : ℚ) := by exact_mod_cast hc
    have hTq : (0 : ℚ) < (T : ℚ) := by exact_mod_cast hT
    exact div_pos hcq hTq

/-- Witness for C9: three rounds of the sample sequence
`0 ↦ (0,), 1 ↦ (1,), 2 ↦ (0,)`. -/
theorem solve_runs_T_rounds_witness :
    ((run_counts (fun t => [t % 2]) 3).map Prod.snd).sum = 3 ∧
    ((solve 3 (fun t => [t % 2])).map Prod.snd).sum = 1 := by
  have h := solve_runs_T_rounds 3 (fun t => [t % 2]) (by norm_num)
  exact ⟨h.1, h.2.1⟩

/-- C10: constructing a CUSTOM `Game` never compares the number of supplied
payoff matrices with `num_players` — construction succeeds whenever every
supplied matrix has the joint-action-space shape — and `get_payoff` on a
game holding fewer matrices than players fails with `IndexError` instead of
a construction-time error. -/
theorem custom_count_unchecked (np : ℕ) (na : List ℕ) (mats : List Tensor)
    (rand : ℕ → List ℕ → ℚ) (hsh : ∀ m ∈ mats, m.shape = na)
    (g : Game) (hlt : g.payoff_matrices.length < g.num_players) (a : List ℕ) :
    game_init np na CUSTOM (some mats) rand = .ok ⟨np, na, mats⟩ ∧
    get_payoff g a = .error "IndexError" := by
  constructor
  · have hfb : find_bad_shape na mats 0 = none := (find_bad_shape_eq_none na mats 0).mpr hsh
    simp [game_init, RANDOM, CHICKEN, CONGESTION, CUSTOM,
      generate_custom_payoff_matrices, hfb, Except.map]
  · rw [get_payoff]
    apply exceptMap_error
    · intro x _ e' he'
      cases hx : g.payoff_matrices.get? x with
      | some t => rw [mat_at, hx] at he'; exact absurd he' (by simp [Except.map])
      | none =>
        rw [mat_at, hx] at he'
        simpa [Except.map] using he'.symm
    · refine ⟨g.payoff_matrices.length, List.mem_range.mpr hlt, ?_⟩
      have hnone : g.payoff_matrices.get? g.payoff_matrices.length = none :=
        List.get?_eq_none.mpr le_rfl
      rw [mat_at, hnone]
      rfl

/-- Witness for C10: a two-player 2×2 game built from a single payoff
matrix constructs fine and `get_payoff` then raises `IndexError`. -/
theorem custom_count_unchecked_witness :
    game_init 2 [2, 2] CUSTOM (some mats_one_2x2) rand0 = .ok game_short ∧
    get_payoff game_short [0, 0] = .error "IndexError" :=
  custom_count_unchecked 2 [2, 2] mats_one_2x2 rand0
    (by intro m hm; simp only [mats_one_2x2, List.mem_singleton] at hm; subst hm; rfl)
    game_short (by decide) [0, 0]

end CEVerif
